import Mathlib

/-!
Shallow embedding of the core of `upbuild.rs` (manifest parser and execution
engine) in Lean 4, together with proofs checking the natural-language
specification against the code.

Source files embedded:
- `src/file.rs`: task model (`Cmd`), flag/line grammar, `ClassicFile::parse_lines`;
- `src/exec.rs`: `Exec::run_dir`, `Exec::with_args`, and the task loop of
  `Exec::run`, with the `Runner` trait modelled as an oracle structure and the
  runner interactions recorded as an explicit event trace.

Rust `isize` return codes are modelled as unbounded `Int` (no task-relevant
arithmetic overflows them), `HashSet<String>` as `List String` with
membership-based operations (de-duplication is irrelevant to the disjointness
tests the code performs), and `HashMap<RetCode, RetCode>` as an association
list whose `insert` removes any previous binding, matching map semantics.
`PathBuf` is modelled as an absolute-flag plus a component list, with `join`
replacing the left side whenever the right side is absolute, exactly as
`PathBuf::join` behaves.
-/

namespace Upbuild

/-- Rust `pub type RetCode = isize` (src/exec.rs), modelled as `Int`. -/
abbrev RetCode := Int

/-- Model of `HashMap<RetCode, RetCode>`: an association list with unique keys. -/
abbrev RetMap := List (RetCode × RetCode)

/-- Map insertion: any previous binding for the key is removed, as in
`HashMap::insert`. -/
def RetMap.insert (m : RetMap) (k v : RetCode) : RetMap :=
  (m.filter (fun p => !(p.1 == k))) ++ [(k, v)]

/-- Map lookup, as in `HashMap::get`. -/
def RetMap.get? (m : RetMap) (k : RetCode) : Option RetCode :=
  (m.find? (fun p => p.1 == k)).map (fun p => p.2)

/-- Model of `HashSet::is_disjoint`: no element of `a` occurs in `b`. -/
def disjointL (a b : List String) : Bool :=
  a.all (fun x => !(b.contains x))

/-- The two sets share an element (negation of `disjointL`). -/
def intersectsL (a b : List String) : Bool :=
  a.any (fun x => b.contains x)

/-- Model of `struct Cmd` (src/file.rs lines 21-33). -/
structure Cmd where
  args : List String := []
  tags : List String := []
  cd : Option String := none
  mkdir : Option String := none
  outfile : Option String := none
  retmap : RetMap := []
  disabled : Bool := false
  manual : Bool := false
  recurse : Bool := false
  dotenvs : List String := []
deriving DecidableEq, Repr

/-- `Cmd::new` (src/file.rs lines 55-64): the first argument line becomes
`args[0]`, and `recurse` is set exactly when it equals `"upbuild"`. -/
def Cmd.new (exe : String) : Cmd :=
  { args := [exe], recurse := exe == "upbuild" }

/-- `Cmd::append_arg` (src/file.rs lines 47-49). -/
def Cmd.append_arg (c : Cmd) (arg : String) : Cmd :=
  { c with args := c.args ++ [arg] }

/-- `Cmd::append_dotenv` (src/file.rs lines 51-53). -/
def Cmd.append_dotenv (c : Cmd) (arg : String) : Cmd :=
  { c with dotenvs := c.dotenvs ++ [arg] }

/-- `Cmd::map_code` (src/file.rs lines 90-93): look the raw code up in the
retmap, defaulting to the code itself. -/
def Cmd.map_code (c : Cmd) (code : RetCode) : RetCode :=
  (RetMap.get? c.retmap code).getD code

/-- `Cmd::enabled_with_reject` (src/file.rs lines 99-120). -/
def Cmd.enabled_with_reject (c : Cmd) (select_tags reject_tags : List String) : Bool :=
  if c.disabled then false
  else if !(disjointL reject_tags c.tags) then false
  else
    let no_tags := select_tags.isEmpty
    if c.manual && (no_tags || disjointL select_tags c.tags) then false
    else if !no_tags then !(disjointL select_tags c.tags)
    else true

/-- Model of `PathBuf`: whether the path is absolute, plus its components.
Construction keeps `"."` and `".."` components verbatim, as `PathBuf::join`
performs no normalisation. -/
structure Path where
  absolute : Bool
  components : List String
deriving DecidableEq, Repr

/-- `PathBuf::join`: an absolute right-hand side replaces the left entirely,
otherwise the components are concatenated. -/
def Path.join (a b : Path) : Path :=
  if b.absolute then b else ⟨a.absolute, a.components ++ b.components⟩

/-- Split a character list at every occurrence of the separator, keeping empty
segments, as Rust `str::split` does. -/
def splitOnChar (c : Char) : List Char → List (List Char)
  | [] => [[]]
  | x :: rest =>
    let r := splitOnChar c rest
    if x = c then [] :: r
    else
      match r with
      | [] => [[x]]
      | h :: t => (x :: h) :: t

/-- Split a character list at the first occurrence of the given character,
modelling `str::split_once(char)`. -/
def splitOnceChar (c : Char) : List Char → Option (List Char × List Char)
  | [] => none
  | x :: rest =>
    if x = c then some ([], rest)
    else (splitOnceChar c rest).map (fun p => (x :: p.1, p.2))

/-- Model of `str::starts_with`. -/
def strStartsWith (s pre : String) : Bool :=
  pre.toList.isPrefixOf s.toList

/-- Model of `PathBuf::from` on a string: leading `/` marks the path absolute,
and the non-empty `/`-separated segments are the components. -/
def parsePath (s : String) : Path :=
  let cs := s.toList
  let abs : Bool :=
    match cs with
    | '/' :: _ => true
    | _ => false
  ⟨abs, ((splitOnChar '/' cs).filter (fun l => l ≠ [])).map (fun l => String.mk l)⟩

/-- `Cmd::directory` (src/file.rs lines 74-84): the `@cd` override if present,
else `".."` for recurse tasks, else nothing. -/
def Cmd.directory (c : Cmd) : Option Path :=
  match c.cd with
  | some d => some (parsePath d)
  | none => if c.recurse then some (parsePath "..") else none

/-- `Cmd::mk_dir` (src/file.rs lines 86-88). -/
def Cmd.mk_dir (c : Cmd) : Option Path :=
  c.mkdir.map parsePath

/-- `Cmd::out_file` (src/file.rs lines 66-68). -/
def Cmd.out_file (c : Cmd) : Option Path :=
  c.outfile.map parsePath

/-- `Exec::run_dir` (src/exec.rs lines 97-107): join the command's directory
onto the manifest's base directory. -/
def run_dir (main_working_dir : Option Path) (cmd_dir : Option Path) : Option Path :=
  match cmd_dir with
  | some d =>
    match main_working_dir with
    | some m => some (m.join d)
    | none => some d
  | none => main_working_dir

/-- Drop the first `"--"` element of the list, keeping everything else: the
single-use `first_separator` filter of `Exec::with_args`. -/
def dropFirstSeparator : List String → List String
  | [] => []
  | x :: rest => if x == "--" then rest else x :: dropFirstSeparator rest

/-- `Exec::with_args` (src/exec.rs lines 175-201): substitute `argv0` for the
first literal argument when supplied, then either drop the first `--` (no
passthrough arguments) or truncate at the first `--` and append the
passthrough arguments. -/
def with_args (args : List String) (provided_args : List String) (argv0 : Option String) :
    List String :=
  let skip := if argv0.isSome then 1 else 0
  let base := argv0.toList ++ args.drop skip
  if provided_args.isEmpty then
    dropFirstSeparator base
  else
    base.takeWhile (fun x => !(x == "--")) ++ provided_args

/-- The error type of the tool, `enum Error` (src/error.rs). Payloads that in
Rust wrap `std::io::Error` values are reduced to the carried strings, which is
all the control flow inspects. `invalidHeaderField` is the variant
`Error::InvalidHeaderField` constructed in src/file.rs lines 241 and 300. -/
inductive Err
  | invalidTag (s : String)
  | invalidRetMapDefinition (s : String)
  | emptyEntry
  | flagBeforeCommand (s : String)
  | noCommands
  | failedToExec
  | ioFailed
  | invalidDir (s : String)
  | notFound (s : String)
  | exitWithExitCode (c : RetCode)
  | exitWithSignal (c : RetCode)
  | unableToReadOutfile (s : String)
  | invalidHeaderField (s : String)
deriving DecidableEq, Repr

/-- Task-scope flags, `enum Flags` (src/file.rs lines 10-19). -/
inductive Flags
  | disable
  | tags (ts : List String)
  | manual
  | outfile (f : String)
  | retMap (m : RetMap)
  | cd (d : String)
  | mkdir (d : String)
deriving DecidableEq, Repr

/-- Header-scope flags, `enum HeaderFlags` (src/file.rs lines 35-38). -/
inductive HeaderFlags
  | env (f : String)
deriving DecidableEq, Repr

/-- Manifest header, `struct Header` (src/file.rs lines 40-43). -/
structure Header where
  dotenvs : List String := []
deriving DecidableEq, Repr

/-- One classified manifest line, `enum Line` (src/file.rs lines 134-142). -/
inductive Line
  | flag (f : Flags)
  | arg (s : String)
  | headerFlag (f : HeaderFlags)
  | headerSeparator
  | comment
  | terminator
deriving DecidableEq, Repr

/-- A parsed manifest, `struct ClassicFile` (src/file.rs lines 128-132). -/
structure ClassicFile where
  commands : List Cmd
  header : Header
deriving DecidableEq, Repr

/-- Name used for the `FlagBeforeCommand` payload, standing in for the Rust
`format!("{:?}", f)` debug rendering. -/
def flagName : Flags → String
  | .disable => "Disable"
  | .tags _ => "Tags"
  | .manual => "Manual"
  | .outfile _ => "Outfile"
  | .retMap _ => "RetMap"
  | .cd _ => "Cd"
  | .mkdir _ => "Mkdir"

/-- Parse a decimal integer with an optional sign, modelling
`str::parse::<isize>` (overflow is ignored: codes are unbounded here). -/
def parseRetCode (s : List Char) : Option RetCode :=
  let (neg, ds) :=
    match s with
    | '-' :: rest => (true, rest)
    | '+' :: rest => (false, rest)
    | _ => (false, s)
  if ds.isEmpty then none
  else if ds.all Char.isDigit then
    let n : Nat := ds.foldl (fun n c => n * 10 + (c.toNat - 48)) 0
    some (if neg then -(n : Int) else (n : Int))
  else none

/-- Split a character list at the first occurrence of `"=>"`, modelling
`str::split_once("=>")`. -/
def splitOnceArrow : List Char → Option (List Char × List Char)
  | [] => none
  | '=' :: '>' :: rest => some ([], rest)
  | x :: rest => (splitOnceArrow rest).map (fun p => (x :: p.1, p.2))

/-- Loop body of `parse_retmap` (src/file.rs lines 160-170), one `a=>b` entry
per element. -/
def parseRetmapEntries (defn : String) : List (List Char) → RetMap → Except Err RetMap
  | [], h => .ok h
  | e :: rest, h =>
    match splitOnceArrow e with
    | none => .error (.invalidRetMapDefinition defn)
    | some (a, b) =>
      match parseRetCode a with
      | none => .error (.invalidRetMapDefinition (String.mk a))
      | some x =>
        match parseRetCode b with
        | none => .error (.invalidRetMapDefinition (String.mk b))
        | some y => parseRetmapEntries defn rest (h.insert x y)

/-- `parse_retmap` (src/file.rs lines 160-170). -/
def parse_retmap (defn : String) : Except Err RetMap :=
  parseRetmapEntries defn (splitOnChar ',' defn.toList) []

/-- `split_flag` (src/file.rs lines 208-213): strip the leading `@`, then
split at the first `=` (empty value if there is none). -/
def split_flag (l : String) : Except Err (String × String) :=
  match l.toList with
  | '@' :: rest =>
    match splitOnceChar '=' rest with
    | some (a, b) => .ok (String.mk a, String.mk b)
    | none => .ok (String.mk rest, "")
  | _ => .error (.invalidTag l)

/-- `parse_line` (src/file.rs lines 172-206), with the match arms in source
order: exact `@disable` / `@manual` / `&&` first, then any line starting with
`@---` as the header separator, then comments, then `@` flags, then plain
argument lines. -/
def parse_line (l : String) : Except Err Line :=
  if l == "@disable" then .ok (.flag .disable)
  else if l == "@manual" then .ok (.flag .manual)
  else if l == "&&" then .ok .terminator
  else if strStartsWith l "@---" then .ok .headerSeparator
  else if strStartsWith l "#" then .ok .comment
  else if strStartsWith l "@" then
    match split_flag l with
    | .error e => .error e
    | .ok (name, value) =>
      if name == "tags" then
        .ok (.flag (.tags (if value == "" then []
          else (splitOnChar ',' value.toList).map (fun t => String.mk t))))
      else if name == "retmap" then (parse_retmap value).map (fun m => .flag (.retMap m))
      else if name == "outfile" then .ok (.flag (.outfile value))
      else if name == "cd" then .ok (.flag (.cd value))
      else if name == "mkdir" then .ok (.flag (.mkdir value))
      else if name == "env" then .ok (.headerFlag (.env value))
      else if name == "disable" && value == "" then .ok (.flag .disable)
      else if name == "manual" && value == "" then .ok (.flag .manual)
      else .error (.invalidTag l)
  else .ok (.arg l)

/-- Header detection state, `enum HeaderDetectState` (src/file.rs lines 215-219). -/
inductive HeaderDetectState
  | inHeader
  | inBody
  | unknown
deriving DecidableEq, Repr

/-- The mutable state of the `parse_lines` loop: the open entry, the finished
entries, the header detection state and the header. -/
structure ParseState where
  entry : Option Cmd
  entries : List Cmd
  headerState : HeaderDetectState
  header : Header
deriving DecidableEq, Repr

/-- Initial state of the `parse_lines` loop (src/file.rs lines 229-232). -/
def initState : ParseState :=
  { entry := none, entries := [], headerState := .unknown, header := {} }

/-- Apply a task-scope flag to the open command (src/file.rs lines 260-268). -/
def applyFlag (c : Cmd) : Flags → Cmd
  | .disable => { c with disabled := true }
  | .manual => { c with manual := true }
  | .tags ts => { c with tags := ts }
  | .outfile f => { c with outfile := some f }
  | .retMap m => { c with retmap := m }
  | .cd d => { c with cd := some d }
  | .mkdir d => { c with mkdir := some d }

/-- One iteration of the `parse_lines` loop (src/file.rs lines 234-313). -/
def parseStep (st : ParseState) (raw : String) : Except Err ParseState :=
  match parse_line raw with
  | .error e => .error e
  | .ok line =>
    match line with
    | .headerSeparator =>
      match st.headerState with
      | .inHeader => .ok { st with headerState := .inBody }
      | .unknown => .ok { st with headerState := .inBody }
      | .inBody => .error (.invalidHeaderField "Header separator not allowed here")
    | .arg f =>
      match st.entry with
      | some cmd => .ok { st with entry := some (cmd.append_arg f), headerState := .inBody }
      | none => .ok { st with entry := some (Cmd.new f), headerState := .inBody }
    | .flag f =>
      match st.entry with
      | some cmd => .ok { st with entry := some (applyFlag cmd f), headerState := .inBody }
      | none => .error (.flagBeforeCommand (flagName f))
    | .comment => .ok st
    | .terminator =>
      match st.entry with
      | some c =>
        .ok { st with entries := st.entries ++ [c], entry := none, headerState := .inBody }
      | none => .error .emptyEntry
    | .headerFlag (.env e) =>
      match st.headerState with
      | .inHeader => .ok { st with header := ⟨st.header.dotenvs ++ [e]⟩ }
      | .inBody =>
        match st.entry with
        | some cmd => .ok { st with entry := some (cmd.append_dotenv e) }
        | none => .error (.flagBeforeCommand ("@env=" ++ e))
      | .unknown =>
        .ok { st with headerState := .inHeader, header := ⟨st.header.dotenvs ++ [e]⟩ }

/-- The `parse_lines` loop over the remaining input lines. -/
def parseLinesAux : List String → ParseState → Except Err ParseState
  | [], st => .ok st
  | l :: rest, st =>
    match parseStep st l with
    | .error e => .error e
    | .ok st' => parseLinesAux rest st'

/-- `ClassicFile::parse_lines` (src/file.rs lines 224-324): run the loop, then
close and append the open entry, or fail with `EmptyEntry` when none is open
at end of input. -/
def parse_lines (lines : List String) : Except Err ClassicFile :=
  match parseLinesAux lines initState with
  | .error e => .error e
  | .ok st =>
    match st.entry with
    | some c => .ok { commands := st.entries ++ [c], header := st.header }
    | none => .error .emptyEntry

/-- Observable interactions between the execution engine and its `Runner`
collaborator (src/exec.rs trait `Runner`), recorded as a trace. `mkdirWarn`
records the warning printed when `check_mkdir` fails (src/exec.rs line 148). -/
inductive Event
  | runProc (args : List String) (dir : Option Path)
  | mkdirReq (d : Path)
  | mkdirWarn (d : Path)
  | enterDir (d : Path)
  | displayOut (f : Path)
  | loadEnv (name : String) (allowMissing : Bool)
deriving DecidableEq, Repr

/-- Oracle for the `Runner` trait (src/exec.rs lines 31-61): what each call
would return. `none` stands for `Ok(())`. -/
structure Runner where
  runRes : List String → Option Path → Except Err RetCode
  mkdirRes : Path → Option Err
  displayRes : Path → Option Err
  loadEnvRes : String → Bool → Option Err

/-- The fields of `struct Config` (src/cfg.rs lines 8-16) that the execution
engine consumes (`completion` drives only the CLI surface). -/
structure Config where
  print : Bool := false
  skip_env : Bool := false
  select : List String := []
  reject : List String := []
  add : Bool := false
  argv0 : String := "upbuild"

/-- The path `"."` used by `Exec::show_entering_always` when no directory is
set (src/exec.rs lines 89-95). -/
def dotPath : Path := ⟨false, ["."]⟩

/-- Entering-directory notice for a resolved run directory, `"."` when it is
`None` (`Exec::show_entering_always`, src/exec.rs lines 89-95; `canonicalize`
is modelled as the identity, its fallback behaviour). -/
def enterAlways (rdir : Option Path) : Event :=
  match rdir with
  | some d => .enterDir d
  | none => .enterDir dotPath

/-- The directory-creation step for one task (src/exec.rs lines 144-151):
when `mkdirTarget` is set, resolve it with `run_dir` against the manifest base
directory and ask the runner to create it; a failure adds only a warning
event. -/
def mkdirPhase (r : Runner) (main_working_dir : Option Path) (cmd : Cmd) : List Event :=
  match cmd.mk_dir with
  | some md =>
    match run_dir main_working_dir (some md) with
    | some d =>
      match r.mkdirRes d with
      | some _ => [.mkdirReq d, .mkdirWarn d]
      | none => [.mkdirReq d]
    | none => []
  | none => []

/-- The runner invocation outcome and return-code policy for one task
(src/exec.rs lines 161-169): propagate a runner error, abort with
`ExitWithExitCode` on a non-zero mapped code, otherwise stream the output
file if one is set (whose failure is the task's result). Returns the trailing
events and the abort result. -/
def runPhase (r : Runner) (cmd : Cmd) (args : List String) (rdir : Option Path) :
    List Event × Option Err :=
  match r.runRes args rdir with
  | .error e => ([], some e)
  | .ok code =>
    let c := cmd.map_code code
    if c ≠ 0 then ([], some (.exitWithExitCode c))
    else
      match cmd.out_file with
      | some f => ([.displayOut f], r.displayRes f)
      | none => ([], none)

/-- One iteration of the task loop of `Exec::run` (src/exec.rs lines 132-170):
given the cursor `lastDir`, produce the events emitted for this task, the new
cursor, and an error if the run aborts here. -/
def execCmd (r : Runner) (cfg : Config) (provided_args : List String)
    (main_working_dir : Option Path) (lastDir : Option Path) (cmd : Cmd) :
    List Event × Option Path × Option Err :=
  if !(cmd.enabled_with_reject cfg.select cfg.reject) then ([], lastDir, none)
  else
    let args := with_args cmd.args provided_args
      (if cmd.recurse then some cfg.argv0 else none)
    let rdir := run_dir main_working_dir cmd.directory
    let cdEvs : List Event := if rdir ≠ lastDir then [enterAlways rdir] else []
    let lastDir' := if rdir ≠ lastDir then rdir else lastDir
    let tail := runPhase r cmd args rdir
    (mkdirPhase r main_working_dir cmd ++ cdEvs ++ [Event.runProc args rdir] ++ tail.1,
     lastDir', tail.2)

/-- The task loop of `Exec::run` over the remaining commands: on the first
task that yields an error the loop stops and later tasks contribute nothing. -/
def execCmds (r : Runner) (cfg : Config) (provided_args : List String)
    (main_working_dir : Option Path) :
    List Cmd → Option Path → List Event × Option Path × Option Err
  | [], lastDir => ([], lastDir, none)
  | cmd :: rest, lastDir =>
    let s := execCmd r cfg provided_args main_working_dir lastDir cmd
    match s.2.2 with
    | some e => (s.1, s.2.1, some e)
    | none =>
      let t := execCmds r cfg provided_args main_working_dir rest s.2.1
      (s.1 ++ t.1, t.2)

/-- Load each declared dotenv file in order, stopping at the first failure
(the loop of `Exec::apply_header`, src/exec.rs lines 113-117). -/
def loadEnvList (r : Runner) : List String → List Event × Option Err
  | [] => ([], none)
  | d :: rest =>
    match r.loadEnvRes d false with
    | some e => ([.loadEnv d false], some e)
    | none =>
      let t := loadEnvList r rest
      (.loadEnv d false :: t.1, t.2)

/-- `Exec::apply_header` (src/exec.rs lines 109-119): with no declared dotenv
files (and env loading not skipped) try the conventional default, tolerating
absence; otherwise load each declared file. -/
def apply_header (r : Runner) (header : Header) (cfg : Config) : List Event × Option Err :=
  if !cfg.skip_env && header.dotenvs.isEmpty then
    ([.loadEnv ".upbuild.env" true], r.loadEnvRes ".upbuild.env" true)
  else loadEnvList r header.dotenvs

/-- `Path::parent`: drop the last component; the root and the empty path have
no parent. -/
def Path.parent (p : Path) : Option Path :=
  match p.components with
  | [] => none
  | _ => some ⟨p.absolute, p.components.dropLast⟩

/-- `Exec::relative_dir` (src/exec.rs lines 70-78): the manifest file's parent
directory, or `None` when that parent is `"."` or empty. -/
def relative_dir (path : Path) : Option Path :=
  match path.parent with
  | some par =>
    if par.components = [] ∨ par.components = ["."] then none else some par
  | none => none

/-- `Exec::run` (src/exec.rs lines 122-173): apply the header, emit the
initial entering-directory notice, then run the task loop with the manifest
base directory as the initial `last_dir` cursor. -/
def Exec.run (r : Runner) (path : Path) (file : ClassicFile) (cfg : Config)
    (provided_args : List String) : List Event × Option Err :=
  match apply_header r file.header cfg with
  | (hevs, some e) => (hevs, some e)
  | (hevs, none) =>
    let main := relative_dir path
    let enterEvs : List Event :=
      match main with
      | some d => [.enterDir d]
      | none => []
    let t := execCmds r cfg provided_args main file.commands main
    (hevs ++ enterEvs ++ t.1, t.2.2)

/-! Specification-side definitions, written from the specification's words so
the theorems below can compare them with the embedded code, plus concrete
runners, commands and trace observers used by witnesses and counterexamples. -/

/-- The selection truth table exactly as the specification states it:
disabled is always off; a reject intersection is off; a manual task with an
empty or non-matching select set is off; with a non-empty select set the
result is the select intersection; otherwise on. -/
def enabledSpec (c : Cmd) (select reject : List String) : Bool :=
  if c.disabled then false
  else if intersectsL reject c.tags then false
  else if c.manual && (select.isEmpty || !(intersectsL select c.tags)) then false
  else if !(select.isEmpty) then intersectsL select c.tags
  else true

/-- Directory resolution as the specification words it: a set `cd` is joined
onto the base (an absolute `cd` replaces the base entirely); otherwise a
recurse task defaults to `".."` joined onto the base; otherwise the base. -/
def joinSpec (base : Option Path) (p : Path) : Path :=
  if p.absolute then p
  else
    match base with
    | some b => ⟨b.absolute, b.components ++ p.components⟩
    | none => p

/-- The specification's description of the resolved run directory. -/
def runDirSpec (base : Option Path) (c : Cmd) : Option Path :=
  match c.cd with
  | some d => some (joinSpec base (parsePath d))
  | none => if c.recurse then some (joinSpec base (parsePath "..")) else base

/-- A task was open at some point while scanning the input: some prefix of the
lines parses successfully to a state with an open entry. -/
def everOpened (lines : List String) : Bool :=
  (List.range (lines.length + 1)).any (fun i =>
    match parseLinesAux (lines.take i) initState with
    | .ok st => st.entry.isSome
    | .error _ => false)

/-- Resolution of a relative path against an optional base, the effect of
`run_dir` on a present directory. -/
def mkdirResolve (base : Option Path) (p : Path) : Path :=
  match base with
  | some b => b.join p
  | none => p

/-- The directory-creation requests contained in a trace. -/
def mkdirEvents (evs : List Event) : List Path :=
  evs.filterMap (fun e =>
    match e with
    | .mkdirReq d => some d
    | _ => none)

/-- The warning events of a trace (failed directory creation). -/
def isWarn : Event → Bool
  | .mkdirWarn _ => true
  | _ => false

/-- The process-run requests contained in a trace. -/
def isRunProc : Event → Bool
  | .runProc _ _ => true
  | _ => false

/-- A runner whose every call succeeds, returning exit code 0. -/
def okRunner : Runner :=
  { runRes := fun _ _ => .ok 0
    mkdirRes := fun _ => none
    displayRes := fun _ => none
    loadEnvRes := fun _ _ => none }

/-- A runner identical to `okRunner` except that directory creation fails. -/
def mkdirFailRunner : Runner :=
  { runRes := fun _ _ => .ok 0
    mkdirRes := fun _ => some .ioFailed
    displayRes := fun _ => none
    loadEnvRes := fun _ _ => none }

/-- A runner whose processes exit with code 2 and everything else succeeds. -/
def code2Runner : Runner :=
  { runRes := fun _ _ => .ok 2
    mkdirRes := fun _ => none
    displayRes := fun _ => none
    loadEnvRes := fun _ _ => none }

/-- A runner whose processes succeed but whose output streaming fails. -/
def failDisplayRunner : Runner :=
  { runRes := fun _ _ => .ok 0
    mkdirRes := fun _ => none
    displayRes := fun _ => some (.unableToReadOutfile "f")
    loadEnvRes := fun _ _ => none }

/-- A task with both a working-directory override and a mkdir target. -/
def cdMkdirCmd : Cmd := { args := ["cmake"], cd := some "build", mkdir := some "x" }

/-- A task with the retmap `1=>0`, as in the `uv4` example of the manifest
test-suite. -/
def retmapCmd : Cmd := { args := ["uv4"], retmap := [(1, 0)] }

/-- A task with an output file. -/
def outfileCmd : Cmd := { args := ["a"], outfile := some "f" }

/-- A plain second task. -/
def plainCmd : Cmd := { args := ["b"] }

/-- A disabled task. -/
def disabledCmd : Cmd := { args := ["make"], disabled := true }

/-! Theorems. -/

/-- Disjointness is the negation of intersection. -/
theorem disjointL_eq_not_intersectsL (a b : List String) :
    disjointL a b = !(intersectsL a b) := by
  induction a with
  | nil => rfl
  | cons x xs ih =>
    simp only [disjointL, intersectsL, List.all_cons, List.any_cons, Bool.not_or] at *
    rw [ih]

/-- C1: for every task and every pair of select/reject tag sets,
`enabled_with_reject` returns false for a disabled task; otherwise false when
the reject set intersects the tags; otherwise false when the task is manual
and the select set is empty or disjoint from the tags; otherwise, with a
non-empty select set, exactly the select intersection; otherwise true. -/
theorem enabled_with_reject_matches_spec (c : Cmd) (select reject : List String) :
    c.enabled_with_reject select reject = enabledSpec c select reject := by
  unfold Cmd.enabled_with_reject enabledSpec
  simp [disjointL_eq_not_intersectsL]

/-- C2 counterexample: with no passthrough arguments the resolver does not
drop the tokens following the first `--`; on `["make","-j8","--","ignored"]`
it keeps `"ignored"`, so the claimed result `["make","-j8"]` is wrong. -/
theorem with_args_default_claim_false :
    ¬ (with_args ["make", "-j8", "--", "ignored"] [] none = ["make", "-j8"]) := by
  decide

/-- C2 as amended: with no passthrough arguments only the first `--` itself is
dropped, giving `["make","-j8","ignored"]`; with passthrough `["all"]` the
literal arguments are truncated at the first `--` and `"all"` is appended. -/
theorem with_args_examples :
    with_args ["make", "-j8", "--", "ignored"] [] none = ["make", "-j8", "ignored"] ∧
    with_args ["make", "-j8", "--", "ignored"] ["all"] none = ["make", "-j8", "all"] := by
  decide

/-- With unique keys, `find?` retrieves a member binding. -/
theorem find_assoc_of_nodup {l : RetMap} {k v : RetCode}
    (hnd : (l.map Prod.fst).Nodup) (hm : (k, v) ∈ l) :
    l.find? (fun q => q.1 == k) = some (k, v) := by
  induction l with
  | nil => cases hm
  | cons p rest ih =>
    rw [List.map_cons, List.nodup_cons] at hnd
    rcases List.mem_cons.mp hm with h | h
    · subst h
      exact List.find?_cons_of_pos _ (by simp)
    · have hk : k ∈ rest.map Prod.fst := List.mem_map_of_mem Prod.fst h
      have hne : ¬ ((fun q : RetCode × RetCode => q.1 == k) p) = true := by
        intro hb
        exact hnd.1 ((beq_iff_eq.mp hb) ▸ hk)
      have hstep : List.find? (fun q => q.1 == k) (p :: rest) =
          List.find? (fun q => q.1 == k) rest :=
        List.find?_cons_of_neg _ hne
      rw [hstep]
      exact ih hnd.2 h

/-- C4: for every task and integer return code, `map_code` returns the bound
value when the code is a key of the retmap (whose keys are unique, the
`HashMap` invariant), and the code itself when the code is absent. -/
theorem map_code_lookup (c : Cmd) (code v : RetCode) :
    ((c.retmap.map Prod.fst).Nodup → (code, v) ∈ c.retmap → c.map_code code = v) ∧
    ((∀ w, (code, w) ∉ c.retmap) → c.map_code code = code) := by
  constructor
  · intro hnd hm
    unfold Cmd.map_code RetMap.get?
    rw [find_assoc_of_nodup hnd hm]
    rfl
  · intro h
    unfold Cmd.map_code RetMap.get?
    have hnone : c.retmap.find? (fun p => p.1 == code) = none := by
      rw [List.find?_eq_none]
      intro p hp hb
      have h1 : p.1 = code := beq_iff_eq.mp hb
      have : (code, p.2) ∈ c.retmap := by
        rw [← h1]
        exact hp
      exact h p.2 this
    rw [hnone]
    rfl

/-- C4 witness: with the retmap `1=>0` the raw code 1 maps to 0 and the
raw code 5, being absent, passes through unchanged. -/
theorem map_code_lookup_witness :
    Cmd.map_code retmapCmd 1 = 0 ∧ Cmd.map_code retmapCmd 5 = 5 :=
  ⟨(map_code_lookup retmapCmd 1 0).1 (by decide) (by decide),
   (map_code_lookup retmapCmd 5 0).2 (by intro w hw; simp [retmapCmd] at hw)⟩

/-- The relative parent path parses to a single `".."` component. -/
theorem parsePath_parent_dir : parsePath ".." = ⟨false, [".."]⟩ := by decide

/-- C8: the resolved run directory is the base joined with the task's `cd`
when `cd` is set (an absolute `cd` replacing the base entirely), `".."`
joined onto the base for a recurse task without `cd`, and the base itself
otherwise. -/
theorem run_dir_resolution_spec (base : Option Path) (c : Cmd) :
    run_dir base c.directory = runDirSpec base c := by
  unfold run_dir Cmd.directory runDirSpec joinSpec Path.join
  cases hcd : c.cd with
  | some d =>
    cases base with
    | some b => cases hab : (parsePath d).absolute <;> simp [hab]
    | none => cases hab : (parsePath d).absolute <;> simp [hab]
  | none =>
    cases hr : c.recurse with
    | true =>
      cases base with
      | some b => simp [parsePath_parent_dir]
      | none => simp [parsePath_parent_dir]
    | false => cases base <;> simp

/-- C10: every line beginning with `@---` is classified as the header/body
separator, whatever follows, taking priority over ordinary `@` flag parsing. -/
theorem parse_line_header_separator_priority (l : String)
    (h : strStartsWith l "@---" = true) :
    parse_line l = .ok .headerSeparator := by
  have h1 : l ≠ "@disable" := by rintro rfl; exact absurd h (by decide)
  have h2 : l ≠ "@manual" := by rintro rfl; exact absurd h (by decide)
  have h3 : l ≠ "&&" := by rintro rfl; exact absurd h (by decide)
  simp [parse_line, h1, h2, h3, h]

/-- C10 witness: the line `"@---x"` is the separator, not an `InvalidTag`. -/
theorem parse_line_header_separator_priority_witness :
    parse_line "@---x" = .ok .headerSeparator :=
  parse_line_header_separator_priority "@---x" (by decide)

/-- C5 (amended): whenever the loop over all input lines succeeds, the open
task, if any, is closed and appended at end of input; otherwise — no task
open at end of input — the parse fails with `EmptyEntry`, whether or not
tasks were completed earlier. -/
theorem parse_lines_end_of_input (lines : List String) (st : ParseState)
    (h : parseLinesAux lines initState = .ok st) :
    (∀ c, st.entry = some c →
      parse_lines lines = .ok { commands := st.entries ++ [c], header := st.header }) ∧
    (st.entry = none → parse_lines lines = .error .emptyEntry) := by
  constructor
  · intro c hc
    simp only [parse_lines, h, hc]
  · intro hc
    simp only [parse_lines, h, hc]

/-- C5 witness: the single line `"make"` leaves a task open, which end of
input closes and appends. -/
theorem parse_lines_end_of_input_witness :
    parse_lines ["make"] = .ok { commands := [Cmd.new "make"], header := {} } := by
  have h : parseLinesAux ["make"] initState =
      .ok { entry := some (Cmd.new "make"), entries := [], headerState := .inBody,
            header := {} } := by rfl
  exact (parse_lines_end_of_input ["make"] _ h).1 (Cmd.new "make") rfl

/-- C5 counterexample: in the input `make` then `&&` a task is opened (and
closed by the terminator), yet the parse still fails with `EmptyEntry`,
because no task is open when the input ends — refuting the claim that the
`EmptyEntry` failure occurs if and only if no task was ever opened. -/
theorem parse_lines_trailing_terminator :
    everOpened ["make", "&&"] = true ∧
    parse_lines ["make", "&&"] = .error .emptyEntry :=
  ⟨by decide, by rfl⟩

/-- C9: a task skipped by tag selection contributes nothing to the run: no
runner call, no event, no cursor change — the loop behaves as if the task
were absent. -/
theorem skipped_task_no_side_effects (r : Runner) (cfg : Config)
    (provided : List String) (main ld : Option Path) (cmd : Cmd) (rest : List Cmd)
    (h : cmd.enabled_with_reject cfg.select cfg.reject = false) :
    execCmds r cfg provided main (cmd :: rest) ld = execCmds r cfg provided main rest ld := by
  have hc : execCmd r cfg provided main ld cmd = ([], ld, none) := by
    unfold execCmd
    simp [h]
  simp [execCmds, hc]

/-- C9 witness: a disabled task is skipped with no trace. -/
theorem skipped_task_no_side_effects_witness :
    execCmds okRunner {} [] none [disabledCmd] none = execCmds okRunner {} [] none [] none :=
  skipped_task_no_side_effects okRunner {} [] none none disabledCmd [] (by decide)

/-- Directory-creation requests distribute over trace concatenation. -/
theorem mkdirEvents_append (a b : List Event) :
    mkdirEvents (a ++ b) = mkdirEvents a ++ mkdirEvents b :=
  List.filterMap_append a b _

/-- An entering-directory notice is never a directory-creation request. -/
theorem mkdirEvents_enterAlways (x : Option Path) : mkdirEvents [enterAlways x] = [] := by
  cases x <;> rfl

/-- A process run is never a directory-creation request. -/
theorem mkdirEvents_runProc (a : List String) (d : Option Path) :
    mkdirEvents [Event.runProc a d] = [] := rfl

/-- The run/return-code phase makes no directory-creation request. -/
theorem mkdirEvents_runPhase (r : Runner) (cmd : Cmd) (args : List String)
    (rdir : Option Path) : mkdirEvents (runPhase r cmd args rdir).1 = [] := by
  unfold runPhase
  cases hr : r.runRes args rdir with
  | error e => rfl
  | ok code =>
    by_cases hc : cmd.map_code code ≠ 0
    · simp [hc, mkdirEvents]
    · cases ho : cmd.out_file <;> simp [hc, ho, mkdirEvents]

/-- The directory-creation phase requests exactly the mkdir target resolved
against the manifest base directory. -/
theorem mkdirEvents_mkdirPhase (r : Runner) (main : Option Path) (cmd : Cmd) (s : String)
    (hmk : cmd.mkdir = some s) :
    mkdirEvents (mkdirPhase r main cmd) = [mkdirResolve main (parsePath s)] := by
  unfold mkdirPhase
  have hmd : cmd.mk_dir = some (parsePath s) := by
    unfold Cmd.mk_dir
    rw [hmk]
    rfl
  rw [hmd]
  cases main with
  | none =>
    cases h : r.mkdirRes (parsePath s) <;>
      simp [run_dir, mkdirResolve, h, mkdirEvents]
  | some b =>
    cases h : r.mkdirRes (b.join (parsePath s)) <;>
      simp [run_dir, mkdirResolve, h, mkdirEvents]

/-- C7 (amended): for an enabled task with a mkdir target, the single
directory-creation request of its loop iteration carries the target resolved
against the manifest base directory alone — the task's `workingDirectory`
plays no part. -/
theorem mkdir_resolved_against_base (r : Runner) (cfg : Config)
    (provided : List String) (main ld : Option Path) (cmd : Cmd) (s : String)
    (hen : cmd.enabled_with_reject cfg.select cfg.reject = true)
    (hmk : cmd.mkdir = some s) :
    mkdirEvents (execCmd r cfg provided main ld cmd).1 =
      [mkdirResolve main (parsePath s)] := by
  unfold execCmd
  rw [hen]
  simp only [Bool.not_true, Bool.false_eq_true, if_false]
  rw [mkdirEvents_append, mkdirEvents_append, mkdirEvents_append,
    mkdirEvents_mkdirPhase r main cmd s hmk, mkdirEvents_runPhase, mkdirEvents_runProc]
  split
  · rw [mkdirEvents_enterAlways]
    simp
  · simp [mkdirEvents]

/-- C7 witness: with base directory `base`, working directory `build` and
mkdir target `x`, the creation request is for `base/x`. -/
theorem mkdir_resolved_against_base_witness :
    mkdirEvents (execCmd okRunner {} [] (some ⟨false, ["base"]⟩) none cdMkdirCmd).1 =
      [mkdirResolve (some ⟨false, ["base"]⟩) (parsePath "x")] :=
  mkdir_resolved_against_base okRunner {} [] (some ⟨false, ["base"]⟩) none cdMkdirCmd "x"
    (by decide) rfl

/-- C7 counterexample: with no base directory, working directory `build` and
mkdir target `x`, the runner is asked to create `x`, not the claimed
`build/x` (the base joined with the working directory joined with the
target). -/
theorem mkdir_ignores_working_directory :
    mkdirEvents (execCmd okRunner {} [] none none cdMkdirCmd).1 = [parsePath "x"] ∧
    mkdirEvents (execCmd okRunner {} [] none none cdMkdirCmd).1 ≠
      [Path.join (parsePath "build") (parsePath "x")] := by
  constructor
  · rfl
  · decide

/-- C3 (amended): when the runner returns a raw code for an enabled task, a
non-zero mapped code makes the whole loop return `ExitWithExitCode` with
exactly that code, the remaining tasks contributing nothing; a zero mapped
code lets the loop continue with the remaining tasks, provided streaming of
the task's output file (if any) succeeds. -/
theorem return_code_policy (r : Runner) (cfg : Config) (provided : List String)
    (main ld : Option Path) (cmd : Cmd) (rest : List Cmd) (code : RetCode)
    (hen : cmd.enabled_with_reject cfg.select cfg.reject = true)
    (hrun : r.runRes
        (with_args cmd.args provided (if cmd.recurse then some cfg.argv0 else none))
        (run_dir main cmd.directory) = .ok code) :
    (cmd.map_code code ≠ 0 →
      (execCmds r cfg provided main (cmd :: rest) ld).2.2 =
        some (.exitWithExitCode (cmd.map_code code)) ∧
      (execCmds r cfg provided main (cmd :: rest) ld).1 =
        (execCmd r cfg provided main ld cmd).1) ∧
    (cmd.map_code code = 0 →
      (∀ f, cmd.out_file = some f → r.displayRes f = none) →
      execCmds r cfg provided main (cmd :: rest) ld =
        ((execCmd r cfg provided main ld cmd).1 ++
           (execCmds r cfg provided main rest (execCmd r cfg provided main ld cmd).2.1).1,
         (execCmds r cfg provided main rest (execCmd r cfg provided main ld cmd).2.1).2)) := by
  constructor
  · intro hc
    have hx : (execCmd r cfg provided main ld cmd).2.2 =
        some (.exitWithExitCode (cmd.map_code code)) := by
      unfold execCmd
      rw [hen]
      simp only [Bool.not_true, Bool.false_eq_true, if_false]
      unfold runPhase
      rw [hrun]
      simp [hc]
    constructor
    · simp [execCmds, hx]
    · simp [execCmds, hx]
  · intro hz hdisp
    have hx : (execCmd r cfg provided main ld cmd).2.2 = none := by
      unfold execCmd
      rw [hen]
      simp only [Bool.not_true, Bool.false_eq_true, if_false]
      unfold runPhase
      rw [hrun]
      simp only [hz]
      cases ho : cmd.out_file with
      | none => simp
      | some f => simp [hdisp f ho]
    simp [execCmds, hx]

/-- C3 witness: a raw code 2 under the retmap `1=>0` maps to 2 and aborts the
run with `ExitWithExitCode 2`. -/
theorem return_code_policy_witness :
    (execCmds code2Runner {} [] none [retmapCmd] none).2.2 =
      some (.exitWithExitCode 2) := by
  have h := (return_code_policy code2Runner {} [] none none retmapCmd [] 2
    (by decide) rfl).1 (by decide)
  exact h.1

/-- C3 counterexample: a task whose mapped code is zero but whose output-file
streaming fails does not proceed to the next task — the run aborts with the
streaming error and the second task is never invoked (exactly one process-run
request in the trace). -/
theorem mapped_zero_outfile_counterexample :
    Cmd.map_code outfileCmd 0 = 0 ∧
    (execCmds failDisplayRunner {} [] none [outfileCmd, plainCmd] none).2.2 =
      some (.unableToReadOutfile "f") ∧
    (execCmds failDisplayRunner {} [] none [outfileCmd, plainCmd] none).1.countP
      isRunProc = 1 := by
  refine ⟨by decide, by rfl, by rfl⟩

/-- The run/return-code phase does not consult the directory-creation oracle. -/
theorem runPhase_indep (r1 r2 : Runner) (hrun : r1.runRes = r2.runRes)
    (hdisp : r1.displayRes = r2.displayRes) (cmd : Cmd) (args : List String)
    (rdir : Option Path) :
    runPhase r1 cmd args rdir = runPhase r2 cmd args rdir := by
  unfold runPhase
  rw [hrun, hdisp]

/-- Apart from the warning event, the directory-creation phase is independent
of whether creation succeeds. -/
theorem mkdirPhase_filter_indep (r1 r2 : Runner) (main : Option Path) (cmd : Cmd) :
    (mkdirPhase r1 main cmd).filter (fun e => !(isWarn e)) =
      (mkdirPhase r2 main cmd).filter (fun e => !(isWarn e)) := by
  unfold mkdirPhase
  cases hmd : cmd.mk_dir with
  | none => rfl
  | some md =>
    dsimp only
    cases hrd : run_dir main (some md) with
    | none => rfl
    | some d =>
      dsimp only
      cases h1 : r1.mkdirRes d <;> cases h2 : r2.mkdirRes d <;> simp [isWarn]

/-- One loop iteration under two runners that agree on everything but
directory creation: same result and cursor, and the same events apart from
the warning. -/
theorem execCmd_mkdir_indep (r1 r2 : Runner) (hrun : r1.runRes = r2.runRes)
    (hdisp : r1.displayRes = r2.displayRes) (cfg : Config) (provided : List String)
    (main ld : Option Path) (cmd : Cmd) :
    (execCmd r1 cfg provided main ld cmd).1.filter (fun e => !(isWarn e)) =
      (execCmd r2 cfg provided main ld cmd).1.filter (fun e => !(isWarn e)) ∧
    (execCmd r1 cfg provided main ld cmd).2 = (execCmd r2 cfg provided main ld cmd).2 := by
  unfold execCmd
  by_cases hen : cmd.enabled_with_reject cfg.select cfg.reject = true
  · rw [hen]
    simp only [Bool.not_true, Bool.false_eq_true, if_false]
    rw [runPhase_indep r1 r2 hrun hdisp]
    constructor
    · simp only [List.filter_append]
      rw [mkdirPhase_filter_indep r1 r2]
    · rfl
  · simp only [Bool.not_eq_true] at hen
    simp [hen]

/-- C6: failure of a directory-creation request never changes the outcome of
the run. For any two runners agreeing on process runs and output streaming —
in particular one whose directory creation always fails and one whose always
succeeds — the loop yields the same final cursor and the same result (so the
tasks are still resolved and run), and the same trace apart from warning
events. -/
theorem mkdir_failure_only_warns (r1 r2 : Runner) (hrun : r1.runRes = r2.runRes)
    (hdisp : r1.displayRes = r2.displayRes) (cfg : Config) (provided : List String)
    (main : Option Path) (cmds : List Cmd) (ld : Option Path) :
    (execCmds r1 cfg provided main cmds ld).1.filter (fun e => !(isWarn e)) =
      (execCmds r2 cfg provided main cmds ld).1.filter (fun e => !(isWarn e)) ∧
    (execCmds r1 cfg provided main cmds ld).2 = (execCmds r2 cfg provided main cmds ld).2 := by
  induction cmds generalizing ld with
  | nil => exact ⟨rfl, rfl⟩
  | cons cmd rest ih =>
    obtain ⟨hev, hsnd⟩ := execCmd_mkdir_indep r1 r2 hrun hdisp cfg provided main ld cmd
    have h21 : (execCmd r2 cfg provided main ld cmd).2.1 =
        (execCmd r1 cfg provided main ld cmd).2.1 := by rw [← hsnd]
    unfold execCmds
    cases hx : (execCmd r1 cfg provided main ld cmd).2.2 with
    | some e =>
      have hx2 : (execCmd r2 cfg provided main ld cmd).2.2 = some e := by
        rw [← hsnd]
        exact hx
      simp only [hx, hx2]
      refine ⟨hev, ?_⟩
      simp [h21]
    | none =>
      have hx2 : (execCmd r2 cfg provided main ld cmd).2.2 = none := by
        rw [← hsnd]
        exact hx
      simp only [hx, hx2]
      obtain ⟨ih1, ih2⟩ := ih ((execCmd r1 cfg provided main ld cmd).2.1)
      rw [h21]
      constructor
      · simp only [List.filter_append]
        rw [hev, ih1]
      · exact ih2

/-- C6 witness: on a task with a mkdir target, the always-failing-creation
runner and the always-succeeding one give the same result and the same trace
apart from the warning. -/
theorem mkdir_failure_only_warns_witness :
    (execCmds mkdirFailRunner {} [] none [cdMkdirCmd] none).1.filter (fun e => !(isWarn e)) =
      (execCmds okRunner {} [] none [cdMkdirCmd] none).1.filter (fun e => !(isWarn e)) ∧
    (execCmds mkdirFailRunner {} [] none [cdMkdirCmd] none).2 =
      (execCmds okRunner {} [] none [cdMkdirCmd] none).2 :=
  mkdir_failure_only_warns mkdirFailRunner okRunner rfl rfl {} [] none [cdMkdirCmd] none

end Upbuild
